import Mathlib

/-!
Verification development for the frscript static-analysis engine
(symbol extraction, type inference, diagnostics) of the `fr-ext`
editor extension.

The engine is implemented in TypeScript with line-oriented regular
expressions.  This file gives a shallow embedding of the relevant
functions into Lean:

* `inferType` / `inferReturnType` — expression type inference,
* `parseSymbols` — function / struct / variable extraction,
* `validateDocument` — the diagnostic checker (all passes),
* `isInsideString` — string/f-string boundary detection from `utils.ts`.

A document is modelled as the list of its lines (strings without
newline characters).  Regular-expression matching is embedded as
explicit character-list scanners whose semantics follow the JS regex
engine (ordered alternation, greedy repetition, leftmost match).
Diagnostics are modelled by their line, severity, `code` field and
`Unnecessary` tag; messages and column ranges are not modelled (no
claim depends on them).  A JavaScript runtime exception (undefined
property access) is modelled by `Option`/`none`.

Bounded recursions that walk past a variable number of characters use
an explicit fuel argument initialised with the length of the input;
every step consumes at least one character, so the fuel never runs out
on the initial call and the definitions compute by kernel reduction.
-/

/-- Named characters, so that quotes, braces and the backslash never
appear as character literals. -/
def dqCh : Char := Char.ofNat 34

def sqCh : Char := Char.ofNat 39

def bslCh : Char := Char.ofNat 92

def lbraceCh : Char := Char.ofNat 123

def rbraceCh : Char := Char.ofNat 125

/-- Characters of the JS regex class `\w` (`[A-Za-z0-9_]`). -/
def wordChars : List Char :=
  "abcdefghijklmnopqrstuvwxyzABCDEFGHIJKLMNOPQRSTUVWXYZ0123456789_".data

/-- ASCII whitespace recognised by JS `\s` / `String.trim`
(the non-ASCII members of `\s` are irrelevant for this code base). -/
def wsChars : List Char := [' ', '\t', '\n', '\r', Char.ofNat 11, Char.ofNat 12]

def digitChars : List Char := "0123456789".data

def upperChars : List Char := "ABCDEFGHIJKLMNOPQRSTUVWXYZ".data

/-- First characters of a JS identifier. -/
def identStartChars : List Char :=
  "abcdefghijklmnopqrstuvwxyzABCDEFGHIJKLMNOPQRSTUVWXYZ_".data

/-- Membership in a character list. -/
def chMem (c : Char) : List Char → Bool
  | [] => false
  | x :: rest => x == c || chMem c rest

def isWordChar (c : Char) : Bool := chMem c wordChars

def isJsWs (c : Char) : Bool := chMem c wsChars

def isDigitCh (c : Char) : Bool := chMem c digitChars

def isUpperCh (c : Char) : Bool := chMem c upperChars

/-- Drop leading JS whitespace (the `^\s*` of an anchored regex). -/
def dropWs (cs : List Char) : List Char := cs.dropWhile isJsWs

/-- JS `String.prototype.trim`. -/
def trimList (cs : List Char) : List Char :=
  ((cs.dropWhile isJsWs).reverse.dropWhile isJsWs).reverse

def jsTrim (s : String) : String := ⟨trimList s.data⟩

/-- Maximal leading `\w+` run and the remainder. -/
def takeWord (cs : List Char) : List Char × List Char :=
  (cs.takeWhile isWordChar, cs.dropWhile isWordChar)

def headIs (c : Char) : List Char → Bool
  | [] => false
  | x :: _ => x == c

def lastIs (c : Char) (cs : List Char) : Bool := headIs c cs.reverse

/-- JS `startsWith` with a two-character prefix. -/
def startsWith2 (a b : Char) : List Char → Bool
  | x :: y :: _ => x == a && y == b
  | _ => false

/-- `pat` is a prefix of `cs`. -/
def listStartsWith (pat : List Char) (cs : List Char) : Bool :=
  match pat, cs with
  | [], _ => true
  | _ :: _, [] => false
  | p :: ps, c :: rest => p == c && listStartsWith ps rest

/-- Unanchored substring search (JS `includes`). -/
def listContainsSub (pat : List Char) : List Char → Bool
  | [] => pat.isEmpty
  | c :: rest => listStartsWith pat (c :: rest) || listContainsSub pat rest

/-- Everything after the first occurrence of `q` (undefined use is
guarded by a `contains` check at every call site). -/
def afterFirst (q : Char) (cs : List Char) : List Char :=
  (cs.dropWhile (fun x => !(x == q))).tail

/-- JS regex `^-?\d+$`. -/
def digitsNonempty (cs : List Char) : Bool := !cs.isEmpty && cs.all isDigitCh

def isIntLit (cs : List Char) : Bool :=
  match cs with
  | '-' :: rest => digitsNonempty rest
  | _ => digitsNonempty cs

/-- JS regex `^\d+\.\d+$` (without the sign). -/
def isFloatCore (cs : List Char) : Bool :=
  let d1 := cs.takeWhile isDigitCh
  let r := cs.dropWhile isDigitCh
  !d1.isEmpty &&
    match r with
    | '.' :: r2 => digitsNonempty r2
    | _ => false

/-- JS regex `^-?\d+\.\d+$`. -/
def isFloatLit (cs : List Char) : Bool :=
  match cs with
  | '-' :: rest => isFloatCore rest
  | _ => isFloatCore cs

/-- The global replace `/"[^"]*"|'[^']*'/g → ''` used before looking
for a top-level `:` in a `{...}` literal.  A quote is stripped only
when a closing quote exists (otherwise the regex does not match). -/
def stripQuotedF : Nat → List Char → List Char
  | 0, _ => []
  | _ + 1, [] => []
  | fuel + 1, c :: rest =>
    if c == dqCh && rest.contains dqCh then stripQuotedF fuel (afterFirst dqCh rest)
    else if c == sqCh && rest.contains sqCh then stripQuotedF fuel (afterFirst sqCh rest)
    else c :: stripQuotedF fuel rest

def stripQuoted (cs : List Char) : List Char := stripQuotedF cs.length cs

/-- The literal `"{}"` (the empty dict/set literal). -/
def emptyBraces : String := ⟨[lbraceCh, rbraceCh]⟩

/-- `inferType` from the extension source, on an already-trimmed
value.  Literal-only recognition; returns `none` for anything else. -/
def inferTypeCore (v : String) : Option String :=
  let cs := v.data
  if headIs dqCh cs && lastIs dqCh cs then some "str"
  else if headIs sqCh cs && lastIs sqCh cs then some "str"
  else if startsWith2 'f' dqCh cs || startsWith2 'f' sqCh cs then some "str"
  else if startsWith2 'b' dqCh cs || startsWith2 'b' sqCh cs then some "bytes"
  else if isIntLit cs then some "int"
  else if isFloatLit cs then some "float"
  else if v == "true" || v == "false" then some "bool"
  else if headIs '[' cs && lastIs ']' cs then some "list"
  else if headIs lbraceCh cs && lastIs rbraceCh cs then
    if v == emptyBraces then some "dict"
    else if (stripQuoted cs).contains ':' then some "dict"
    else some "set"
  else none

/-- `inferType(value)` — the source trims its argument first. -/
def inferType (value : String) : Option String := inferTypeCore (jsTrim value)

/-! ## Symbols and diagnostics -/

/-- The `type` field of a `SymbolInfo` record
(`'function' | 'struct' | 'variable'`). -/
inductive SymKind where
  | function
  | struct
  | var
deriving DecidableEq, Repr

/-- A `{type, name}` function parameter (the `type` may carry a
trailing `*` or `**` marker for variadic parameters). -/
structure FunctionParameter where
  type : String
  name : String
deriving DecidableEq, Repr

/-- A `{type, name}` struct field. -/
structure StructField where
  type : String
  name : String
deriving DecidableEq, Repr

/-- A symbol record as produced by `parseSymbols` (docstrings are not
modelled: no diagnostic depends on them). -/
structure SymbolInfo where
  name : String
  type : SymKind
  line : Nat
  returnType : Option String := none
  parameters : List FunctionParameter := []
  fields : List StructField := []
  varType : Option String := none
deriving DecidableEq, Repr

/-- `vscode.DiagnosticSeverity`. -/
inductive Severity where
  | error
  | warning
  | information
  | hint
deriving DecidableEq, Repr

/-- A diagnostic, modelled by line, severity, optional `code` and the
`Unnecessary` tag; messages and column ranges are not modelled. -/
structure Diagnostic where
  line : Nat
  severity : Severity
  code : Option String := none
  unnecessary : Bool := false
deriving DecidableEq, Repr

/-- The fixed `types` array of the extension. -/
def typeNames : List String :=
  ["void", "int", "float", "str", "string", "bool", "list", "dict", "set",
   "bytes", "any", "pyobject", "pyobj", "function"]

/-- The control-flow keywords excluded by the missing-return-type
syntax check. -/
def controlFlowKeywords : List String :=
  ["if", "elif", "else", "while", "for", "switch", "case", "default"]

/-! ## inferReturnType -/

/-- The anchored call pattern `^(\w+)\s*\(`: a leading identifier
followed (after optional whitespace) by an opening parenthesis. -/
def leadCallName (cs : List Char) : Option String :=
  let t := takeWord cs
  if t.1.isEmpty then none
  else if headIs '(' (dropWs t.2) then some ⟨t.1⟩
  else none

/-- The fixed builtin return-type table of `inferReturnType`. -/
def builtinReturnTypes : List (String × String) :=
  [("str", "str"), ("int", "int"), ("float", "float"), ("bool", "bool"),
   ("len", "int"), ("append", "list"), ("pop", "any"),
   ("input", "str"), ("split", "list"), ("join", "str"), ("upper", "str"),
   ("lower", "str"), ("strip", "str"), ("replace", "str"),
   ("sqrt", "float"), ("abs", "any"), ("round", "int"), ("floor", "int"),
   ("ceil", "int"), ("pow", "any"), ("min", "any"), ("max", "any"),
   ("sin", "float"), ("cos", "float"), ("tan", "float"), ("PI", "float"),
   ("E", "float"),
   ("fopen", "int"), ("fread", "bytes"), ("fwrite", "int"),
   ("exists", "bool"), ("isfile", "bool"), ("isdir", "bool"),
   ("listdir", "list"), ("getsize", "int"), ("getcwd", "str"),
   ("abspath", "str"), ("basename", "str"), ("dirname", "str"),
   ("pathjoin", "str"),
   ("fork", "int"), ("wait", "int"), ("sleep", "void"),
   ("socket", "int"), ("accept", "int"), ("send", "int"), ("recv", "bytes"),
   ("py_call", "any"), ("py_getattr", "any"), ("py_call_method", "any")]

/-- The user-function-then-builtin lookup of the call branch of
`inferReturnType` (`if (func && func.returnType) return ...; if
(builtinReturnTypes[funcName]) return ...`; a missing or empty
`returnType` is falsy in JS and falls through). -/
def irtCallBranch (symbols : List SymbolInfo) (cs : List Char) : Option String :=
  match leadCallName cs with
  | none => none
  | some nm =>
    match symbols.find? (fun s => s.type == SymKind.function && s.name == nm) with
    | some f =>
      match f.returnType with
      | some r => if r == "" then builtinReturnTypes.lookup nm else some r
      | none => builtinReturnTypes.lookup nm
    | none => builtinReturnTypes.lookup nm

/-- The struct-construction branch of `inferReturnType` (reached only
when the call branch produced nothing). -/
def irtStructBranch (symbols : List SymbolInfo) (cs : List Char) : Option String :=
  match leadCallName cs with
  | none => none
  | some nm =>
    match symbols.find? (fun s => s.type == SymKind.struct && s.name == nm) with
    | some _ => some nm
    | none => none

/-- `value.split(/[\+\-\*\/]/)` — split at every arithmetic operator
character, keeping empty pieces. -/
def splitArith : List Char → List (List Char)
  | [] => [[]]
  | c :: rest =>
    if c == '+' || c == '-' || c == '*' || c == '/' then
      [] :: splitArith rest
    else
      match splitArith rest with
      | g :: gs => (c :: g) :: gs
      | [] => [[c]]

/-- One operand of an arithmetic split resolves to a `float` variable
(`symbols.find(...)` takes the first symbol with matching name). -/
def operandIsFloatVar (symbols : List SymbolInfo) (op : String) : Bool :=
  match symbols.find? (fun s => s.type == SymKind.var && s.name == op) with
  | some s => s.varType == some "float"
  | none => false

/-- A word boundary in the JS sense, given the previous character. -/
def atBoundary : Option Char → Bool
  | none => true
  | some p => !isWordChar p

/-- Unanchored search for `\b` followed by `pat` (whose first
character is a word character), tracking the previous character. -/
def hasBoundedSub (pat : List Char) : Option Char → List Char → Bool
  | _, [] => false
  | prev, c :: rest =>
    (atBoundary prev && listStartsWith pat (c :: rest)) ||
      hasBoundedSub pat (some c) rest

/-- JS regex `[^<>]<[^<]` (or its `>` twin when `gt` is true). -/
def hasCmpPattern (gt : Bool) : List Char → Bool
  | a :: b :: c :: rest =>
    (!(a == '<') && !(a == '>') && b == (if gt then '>' else '<') &&
      !(c == (if gt then '>' else '<'))) ||
    hasCmpPattern gt (b :: c :: rest)
  | _ => false

/-- The second (dead) bitwise check of `inferReturnType`: the three
ORed regexes `\d+\s*[&|^]\s*\d+`, `\d+\s*<<\s*\d+`, `\d+\s*>>\s*\d+`,
merged into one positional scan. -/
def digitThenOp (cs : List Char) : Bool :=
  let r := dropWs (cs.dropWhile isDigitCh)
  match r with
  | c :: r2 =>
    if c == '&' || c == '|' || c == '^' then headDigit (dropWs r2)
    else if c == '<' then
      match r2 with
      | c2 :: r3 => c2 == '<' && headDigit (dropWs r3)
      | [] => false
    else if c == '>' then
      match r2 with
      | c2 :: r3 => c2 == '>' && headDigit (dropWs r3)
      | [] => false
    else false
  | [] => false
where
  headDigit : List Char → Bool
    | [] => false
    | c :: _ => isDigitCh c

def hasDigitBitwise : List Char → Bool
  | [] => false
  | c :: rest => (isDigitCh c && digitThenOp (c :: rest)) || hasDigitBitwise rest

/-- JS regex `^(\w+)\.(\w+)$` — a plain field access. -/
def matchFieldAccess (cs : List Char) : Option (String × String) :=
  let t := takeWord cs
  if t.1.isEmpty then none
  else
    match t.2 with
    | '.' :: r2 =>
      let u := takeWord r2
      if u.1.isEmpty then none
      else if u.2.isEmpty then some (⟨t.1⟩, ⟨u.1⟩) else none
    | _ => none

/-- JS regex `\w+\[\d+\]` (unanchored). -/
def hasIndexPattern : List Char → Bool
  | [] => false
  | [_] => false
  | a :: b :: rest =>
    (isWordChar a && b == '[' &&
      (!(rest.takeWhile isDigitCh).isEmpty &&
        headIs ']' (rest.dropWhile isDigitCh))) ||
    hasIndexPattern (b :: rest)

/-- The operator/identifier/field tail of `inferReturnType`, reached
when the value is no literal, and neither the call nor the struct
branch produced a type.  `v` is the trimmed value. -/
def irtOps (symbols : List SymbolInfo) (v : String) : Option String :=
  let cs := v.data
  if cs.contains '+' || cs.contains '-' || cs.contains '*' || cs.contains '/' ||
      listContainsSub ['*', '*'] cs then
    if cs.contains '/' then some "float"
    else if cs.contains '.' || hasBoundedSub "float(".data none cs then some "float"
    else if (splitArith cs).any
        (fun op => operandIsFloatVar symbols ⟨trimList op⟩) then some "float"
    else some "int"
  else if cs.contains '&' || cs.contains '|' || cs.contains '^' ||
      listContainsSub ['<', '<'] cs || listContainsSub ['>', '>'] cs then
    some "int"
  else if hasDigitBitwise cs then
    some "int"
  else if listContainsSub ['=', '='] cs || listContainsSub ['!', '='] cs ||
      listContainsSub ['<', '='] cs || listContainsSub ['>', '='] cs ||
      hasCmpPattern false cs || hasCmpPattern true cs ||
      listContainsSub "and".data cs || listContainsSub "or".data cs ||
      listContainsSub "not".data cs then
    some "bool"
  else if cs.contains '+' && (cs.contains dqCh || cs.contains sqCh ||
      hasBoundedSub "str(".data none cs) then
    some "str"
  else
    let varRes :=
      if !cs.isEmpty && cs.all isWordChar then
        match symbols.find? (fun s => s.type == SymKind.var && s.name == v) with
        | some s =>
          match s.varType with
          | some r => if r == "" then none else some r
          | none => none
        | none => none
      else none
    match varRes with
    | some r => some r
    | none =>
      match matchFieldAccess cs with
      | some (vn, fn) =>
        (match symbols.find? (fun s => s.type == SymKind.var && s.name == vn) with
         | some s =>
           match s.varType with
           | some vt =>
             if vt == "" then none
             else
               match symbols.find?
                   (fun s => s.type == SymKind.struct && s.name == vt) with
               | some st =>
                 match st.fields.find? (fun f => f.name == fn) with
                 | some f => some f.type
                 | none => none
               | none => none
           | none => none
         | none => none)
      | none =>
        if hasIndexPattern cs then none else none

/-- `inferReturnType(value, symbols)` on the already-trimmed value. -/
def inferReturnTypeT (v : String) (symbols : List SymbolInfo) : Option String :=
  match inferTypeCore v with
  | some t => some t
  | none =>
    match irtCallBranch symbols v.data with
    | some t => some t
    | none =>
      match irtStructBranch symbols v.data with
      | some t => some t
      | none => irtOps symbols v

/-- `inferReturnType(value, symbols)` — the source trims first. -/
def inferReturnType (value : String) (symbols : List SymbolInfo) : Option String :=
  inferReturnTypeT (jsTrim value) symbols

/-! ## parseSymbols -/

/-- Match a type token from an ordered alternation `(T1|T2|...)` that
must be followed by whitespace (`\s+`): the alternation can only
succeed on the whole maximal `\w+` run, so this is token equality.
Returns the token and the rest (starting at the whitespace). -/
def matchTypeToken (allTypes : List String) (cs : List Char) :
    Option (String × List Char) :=
  let t := takeWord cs
  if t.1.isEmpty then none
  else if allTypes.contains (⟨t.1⟩ : String) then some (⟨t.1⟩, t.2)
  else none

/-- `^\s*(TYPE)\s+(\w+)\s*` followed by `k` — the shared shape of the
declaration regexes; returns (type, name, rest after the name). -/
def matchTypedName (allTypes : List String) (text : String) :
    Option (String × String × List Char) :=
  match matchTypeToken allTypes (dropWs text.data) with
  | none => none
  | some (ty, r1) =>
    match r1 with
    | c :: _ =>
      if isJsWs c then
        let u := takeWord (dropWs r1)
        if u.1.isEmpty then none else some (ty, ⟨u.1⟩, u.2)
      else none
    | [] => none

/-- Function declaration `^\s*(TYPE)\s+(\w+)\s*\(([^)]*)\)`; returns
(returnType, name, raw parameter text before the first `)`). -/
def matchFuncDecl (allTypes : List String) (text : String) :
    Option (String × String × String) :=
  match matchTypedName allTypes text with
  | none => none
  | some (ty, nm, r) =>
    match dropWs r with
    | '(' :: r2 =>
      if r2.contains ')' then
        some (ty, nm, ⟨r2.takeWhile (fun c => !(c == ')'))⟩)
      else none
    | _ => none

/-- Struct header `^\s*struct\s+(\w+)\s*\{`. -/
def matchStructHeader (text : String) : Option String :=
  let cs := dropWs text.data
  if listStartsWith "struct".data cs then
    let r := cs.drop 6
    match r with
    | c :: _ =>
      if isJsWs c then
        let u := takeWord (dropWs r)
        if u.1.isEmpty then none
        else if headIs lbraceCh (dropWs u.2) then some ⟨u.1⟩ else none
      else none
    | [] => none
  else none

/-- Variable declaration `^\s*(TYPE)\s+(\w+)\s*=` (no requirement on
what follows the `=`). -/
def matchVarDeclHead (allTypes : List String) (text : String) :
    Option (String × String) :=
  match matchTypedName allTypes text with
  | none => none
  | some (ty, nm, r) =>
    if headIs '=' (dropWs r) then some (ty, nm) else none

/-- Variable declaration with initializer
`^\s*(TYPE)\s+(\w+)\s*=\s*(.+)$`; the value group is everything after
the `=` (it must be non-empty; the caller trims it). -/
def matchVarDecl (allTypes : List String) (text : String) :
    Option (String × String × String) :=
  match matchTypedName allTypes text with
  | none => none
  | some (ty, nm, r) =>
    match dropWs r with
    | '=' :: rest => if rest.isEmpty then none else some (ty, nm, ⟨rest⟩)
    | _ => none

/-- One parameter, after splitting the parameter text on commas:
`TYPE **name`, else `TYPE *name`, else `TYPE name`, else bare `name`;
anything else contributes no parameter. -/
def parseParam (allTypes : List String) (p : String) : Option FunctionParameter :=
  let t := jsTrim p
  match matchTypeToken allTypes t.data with
  | some (ty, r1) =>
    match r1 with
    | c :: _ =>
      if isJsWs c then
        match dropWs r1 with
        | '*' :: '*' :: r2 =>
          let u := takeWord r2
          if !u.1.isEmpty && u.2.isEmpty then
            some { type := ty ++ "**", name := ⟨u.1⟩ }
          else parseParamTail allTypes t
        | '*' :: r2 =>
          let u := takeWord r2
          if !u.1.isEmpty && u.2.isEmpty then
            some { type := ty ++ "*", name := ⟨u.1⟩ }
          else parseParamTail allTypes t
        | r2 =>
          let u := takeWord r2
          if !u.1.isEmpty && u.2.isEmpty then
            some { type := ty, name := ⟨u.1⟩ }
          else parseParamTail allTypes t
      else parseParamTail allTypes t
    | [] => parseParamTail allTypes t
  | none => parseParamTail allTypes t
where
  /-- The untyped fallback `^(\w+)$` → type `any`. -/
  parseParamTail (_allTypes : List String) (t : String) : Option FunctionParameter :=
    let u := takeWord t.data
    if !u.1.isEmpty && u.2.isEmpty then some { type := "any", name := ⟨u.1⟩ }
    else none

/-- JS `text.split(',')`, keeping empty pieces. -/
def splitCommas : List Char → List String
  | [] => [""]
  | c :: rest =>
    if c == ',' then "" :: splitCommas rest
    else
      match splitCommas rest with
      | g :: gs => (⟨c :: g.data⟩ : String) :: gs
      | [] => [⟨[c]⟩]

/-- Parameter list of a function declaration: trim the raw text; if
empty there are no parameters, otherwise split on commas. -/
def parseParams (allTypes : List String) (paramsRaw : String) :
    List FunctionParameter :=
  let paramsText := jsTrim paramsRaw
  if paramsText == "" then []
  else (splitCommas paramsText.data).filterMap (parseParam allTypes)

/-- Closing-brace line `^\s*\}` that terminates a struct field list. -/
def isCloseBraceLine (text : String) : Bool := headIs rbraceCh (dropWs text.data)

/-- Struct field lines: scan forward until a `^\s*\}` line (or the end
of the document); a line matching `^\s*(TYPE)\s+(\w+)\s*` contributes
a field. -/
def scanFields (allTypes : List String) : List String → List StructField
  | [] => []
  | l :: rest =>
    if isCloseBraceLine l then []
    else
      match matchTypedName allTypes l with
      | some (ty, nm, _) => { type := ty, name := nm } :: scanFields allTypes rest
      | none => scanFields allTypes rest

/-- Symbols contributed by one line (the source tries the function,
struct and variable patterns in this order as independent `if`s). -/
def parseSymbolsLine (allTypes : List String) (doc : List String) (i : Nat)
    (text : String) : List SymbolInfo :=
  (match matchFuncDecl allTypes text with
   | some (ty, nm, paramsRaw) =>
     [{ name := nm, type := SymKind.function, line := i, returnType := some ty,
        parameters := parseParams allTypes paramsRaw }]
   | none => []) ++
  (match matchStructHeader text with
   | some nm =>
     [{ name := nm, type := SymKind.struct, line := i,
        fields := scanFields allTypes (doc.drop (i + 1)) }]
   | none => []) ++
  (match matchVarDeclHead allTypes text with
   | some (ty, nm) =>
     [{ name := nm, type := SymKind.var, line := i, varType := some ty }]
   | none => [])

/-- `parseSymbols(document)`: first collect the struct names, build
the extended type alternation, then scan every line. -/
def parseSymbols (doc : List String) : List SymbolInfo :=
  let structNames := doc.filterMap matchStructHeader
  let allTypes := typeNames ++ structNames
  doc.enum.flatMap (fun p => parseSymbolsLine allTypes doc p.1 p.2)

/-! ## Diagnostic checker: syntax pass -/

/-- Missing-return-type pattern `^(\w+)\s*\([^)]*\)\s*\{` (anchored at
column 0 — indent level 0 only). -/
def matchInvalidFunc (text : String) : Option String :=
  let t := takeWord text.data
  if t.1.isEmpty then none
  else
    match dropWs t.2 with
    | '(' :: r2 =>
      if r2.contains ')' then
        if headIs lbraceCh (dropWs (afterFirst ')' r2)) then some ⟨t.1⟩ else none
      else none
    | _ => none

/-- The semicolon pattern `/;(?!.*\/\/)/`: a `;` that is *not*
followed anywhere later in the line by `//`. -/
def semiMatchExists : List Char → Bool
  | [] => false
  | c :: rest =>
    (c == ';' && !listContainsSub ['/', '/'] rest) || semiMatchExists rest

/-- The semicolon check for one line (`Frscript does not use
semicolons`, code `no-semicolons`). -/
def semicolonDiags (i : Nat) (text : String) : List Diagnostic :=
  if semiMatchExists text.data &&
      !listStartsWith ['/', '/'] (jsTrim text).data then
    [{ line := i, severity := Severity.error, code := some "no-semicolons" }]
  else []

/-- Missing-return-type check for one line. -/
def invalidFuncDiags (i : Nat) (text : String) : List Diagnostic :=
  match matchInvalidFunc text with
  | some ident =>
    if !typeNames.contains ident && !(ident == "struct") &&
        !controlFlowKeywords.contains ident then
      [{ line := i, severity := Severity.error }]
    else []
  | none => []

/-- The first per-line loop of `validateDocument`. -/
def syntaxPass (doc : List String) : List Diagnostic :=
  doc.enum.flatMap (fun p => invalidFuncDiags p.1 p.2 ++ semicolonDiags p.1 p.2)

/-! ## Diagnostic checker: call-site pass -/

/-- The definition-line filter
`^\s*(TYPE|[A-Z][a-zA-Z0-9_]*)\s+\w+\s*\([^)]*\)\s*(\{|$)` (built
from the fixed `types` array, not the struct names). -/
def funcDefTest (text : String) : Bool :=
  let cs := dropWs text.data
  let t := takeWord cs
  if t.1.isEmpty then false
  else if !(typeNames.contains (⟨t.1⟩ : String) ||
      (match t.1 with | c :: _ => isUpperCh c | [] => false)) then false
  else
    match t.2 with
    | c :: _ =>
      isJsWs c &&
        (let u := takeWord (dropWs t.2)
         !u.1.isEmpty &&
           match dropWs u.2 with
           | '(' :: r2 =>
             r2.contains ')' &&
               (let a2 := dropWs (afterFirst ')' r2)
                a2.isEmpty || headIs lbraceCh a2)
           | _ => false)
    | [] => false

/-- The global scan `/(\w+)\s*\(([^)]*)\)/g` over a line: each match
yields (name, raw argument text); scanning resumes after the closing
parenthesis (fuel = length; every step consumes at least one
character). -/
def scanCallsF : Nat → List Char → List (String × String)
  | 0, _ => []
  | _ + 1, [] => []
  | fuel + 1, c :: rest =>
    if isWordChar c then
      let r1 := (c :: rest).dropWhile isWordChar
      match dropWs r1 with
      | '(' :: r3 =>
        if r3.contains ')' then
          ((⟨(c :: rest).takeWhile isWordChar⟩ : String),
            (⟨r3.takeWhile (fun x => !(x == ')'))⟩ : String)) ::
            scanCallsF fuel (afterFirst ')' r3)
        else scanCallsF fuel rest
      | _ => scanCallsF fuel rest
    else scanCallsF fuel rest

def scanCalls (cs : List Char) : List (String × String) := scanCallsF cs.length cs

/-- `argsText.split(',').map(trim)` (empty argument text means no
arguments: `''` is falsy). -/
def splitArgs (argsRaw : String) : List String :=
  let argsText := jsTrim argsRaw
  if argsText == "" then [] else (splitCommas argsText.data).map jsTrim

/-- Per-argument type check against the parameter list.  Accessing a
parameter past the end of the list is `parameters[idx].type` on
`undefined` in JS — a thrown `TypeError`, modelled by `none`. -/
def argLoop (ln : Nat) (params : List FunctionParameter) :
    Nat → List String → Option (List Diagnostic)
  | _, [] => some []
  | idx, arg :: rest =>
    match params.get? idx with
    | none => none
    | some p =>
      let ds :=
        match inferType arg with
        | none => []
        | some it =>
          if !(p.type == "any") && !(it == p.type) then
            if p.type == "int" && it == "float" then
              [{ line := ln, severity := Severity.warning }]
            else
              [{ line := ln, severity := Severity.error }]
          else []
      match argLoop ln params (idx + 1) rest with
      | none => none
      | some more => some (ds ++ more)

/-- Per-argument type check against a struct's field list (the
argument count has already been checked, so the index never runs past
the end). -/
def fieldLoop (ln : Nat) (fields : List StructField) :
    Nat → List String → List Diagnostic
  | _, [] => []
  | idx, arg :: rest =>
    (match fields.get? idx with
     | none => []
     | some fl =>
       match inferType arg with
       | none => []
       | some it =>
         if !(fl.type == "any") && !(it == fl.type) then
           if fl.type == "int" && it == "float" then
             [{ line := ln, severity := Severity.warning }]
           else
             [{ line := ln, severity := Severity.error }]
         else []) ++
    fieldLoop ln fields (idx + 1) rest

/-- Process one `name(args)` site: structs first (construction), then
user functions; unknown names produce nothing.  The arity check is
skipped when some parameter type ends in `*`, but the type loop still
runs over *all* arguments. -/
def processCall (userFunctions userStructs : List SymbolInfo) (ln : Nat)
    (call : String × String) : Option (List Diagnostic) :=
  let args := splitArgs call.2
  match userStructs.find? (fun s => s.name == call.1) with
  | some st =>
    if args.length ≠ st.fields.length then
      some [{ line := ln, severity := Severity.error }]
    else some (fieldLoop ln st.fields 0 args)
  | none =>
    match userFunctions.find? (fun s => s.name == call.1) with
    | none => some []
    | some f =>
      let hasVarargs := f.parameters.any (fun p => lastIs '*' p.type.data)
      if !hasVarargs && args.length ≠ f.parameters.length then
        some [{ line := ln, severity := Severity.error }]
      else argLoop ln f.parameters 0 args

def callsFold (userFunctions userStructs : List SymbolInfo) (ln : Nat) :
    List (String × String) → Option (List Diagnostic)
  | [] => some []
  | c :: rest =>
    match processCall userFunctions userStructs ln c with
    | none => none
    | some ds =>
      match callsFold userFunctions userStructs ln rest with
      | none => none
      | some more => some (ds ++ more)

def callLineDiags (userFunctions userStructs : List SymbolInfo) (ln : Nat)
    (text : String) : Option (List Diagnostic) :=
  if funcDefTest text then some []
  else callsFold userFunctions userStructs ln (scanCalls text.data)

def callPass (userFunctions userStructs : List SymbolInfo) :
    List (Nat × String) → Option (List Diagnostic)
  | [] => some []
  | p :: rest =>
    match callLineDiags userFunctions userStructs p.1 p.2 with
    | none => none
    | some ds =>
      match callPass userFunctions userStructs rest with
      | none => none
      | some more => some (ds ++ more)

/-! ## Diagnostic checker: variable-assignment pass -/

/-- The fixed primitive alternation of the assignment-check regex
(note: no struct names, no `void`, no `function`). -/
def primTypeNames : List String :=
  ["int", "float", "str", "string", "bool", "list", "dict", "set",
   "bytes", "any", "pyobject", "pyobj"]

/-- The primitive list used when collecting a function body's local
variables in the return-type pass (note: no `bytes`). -/
def localPrimTypeNames : List String :=
  ["int", "float", "str", "string", "bool", "list", "dict", "set",
   "any", "pyobject", "pyobj"]

/-- One step of the raw brace count used to locate the enclosing
function (`functionEnded` stops the walk; reaching zero is only
detected on a closing brace). -/
def braceWalkChar (st : Int × Bool) (c : Char) : Int × Bool :=
  if st.2 then st
  else if c == lbraceCh then (st.1 + 1, false)
  else if c == rbraceCh then
    let n := st.1 - 1
    (n, n == 0)
  else st

def braceWalk (lines : List String) : Int × Bool :=
  lines.foldl (fun st l => if st.2 then st else l.data.foldl braceWalkChar st)
    (0, false)

/-- The innermost-function search of the assignment pass: the first
declared function starting strictly before line `i` whose brace count
is still open at line `i`. -/
def findCurrentFunction (doc : List String) (userFunctions : List SymbolInfo)
    (i : Nat) : Option SymbolInfo :=
  userFunctions.find? (fun f =>
    if i ≤ f.line then false
    else
      let w := braceWalk ((doc.drop f.line).take (i - f.line + 1))
      !w.2 && decide ((0 : Int) < w.1))

/-- Parameters of the enclosing function as pseudo-variables (they
shadow globals because they come first in the context). -/
def paramVars (f : SymbolInfo) : List SymbolInfo :=
  f.parameters.map (fun p =>
    { name := p.name, type := SymKind.var, line := f.line, varType := some p.type })

/-- The assignment type check for one line. -/
def varAssignLine (doc : List String) (symbols userFunctions : List SymbolInfo)
    (i : Nat) (text : String) : List Diagnostic :=
  match matchVarDecl primTypeNames text with
  | none => []
  | some (declaredType, _, rawVal) =>
    if declaredType == "any" then []
    else
      let ctx :=
        (match findCurrentFunction doc userFunctions i with
         | some f => paramVars f
         | none => []) ++ symbols
      match inferReturnType (jsTrim rawVal) ctx with
      | none => []
      | some it =>
        if it == "any" || it == declaredType then []
        else if declaredType == "int" && it == "float" then
          [{ line := i, severity := Severity.warning, code := some "implicit-cast" }]
        else
          [{ line := i, severity := Severity.error, code := some "type-mismatch" }]

/-- The variable-assignment type-check pass of `validateDocument`. -/
def varAssignPass (doc : List String) : List Diagnostic :=
  let symbols := parseSymbols doc
  let userFunctions := symbols.filter (fun s => s.type == SymKind.function)
  doc.enum.flatMap (fun p => varAssignLine doc symbols userFunctions p.1 p.2)

/-! ## Diagnostic checker: return-type pass -/

/-- State of the closing-brace search for a function body. -/
structure BraceScanSt where
  cnt : Int
  found : Bool
  endLine : Nat
  stopped : Bool
deriving Repr

def braceScanChar (i : Nat) (st : BraceScanSt) (c : Char) : BraceScanSt :=
  if st.stopped then st
  else if c == lbraceCh then { st with cnt := st.cnt + 1, found := true }
  else if c == rbraceCh then
    let n := st.cnt - 1
    if st.found && n == 0 then
      { st with cnt := n, endLine := i, stopped := true }
    else { st with cnt := n }
  else st

/-- Find the closing-brace line of the function starting at
`startLine`; if the scan runs off the end of the document the result
stays `startLine` (the initial value of `funcEndLine`). -/
def findFuncEnd (doc : List String) (startLine : Nat) : Nat :=
  let st := (doc.drop startLine).enum.foldl
    (fun st p =>
      if st.stopped then st
      else
        let st2 := p.2.data.foldl (braceScanChar (startLine + p.1)) st
        if !st2.stopped && st2.found && st2.cnt == 0 then
          { st2 with stopped := true }
        else st2)
    { cnt := 0, found := false, endLine := startLine, stopped := false }
  st.endLine

/-- The return pattern `^\s*return\s+(.+?)$`; the group is the rest of
the line after the mandatory whitespace (when the rest is only
whitespace, the group backtracks to all but one of those blanks). -/
def matchReturnValue (text : String) : Option String :=
  let cs := dropWs text.data
  if listStartsWith "return".data cs then
    let r := cs.drop 6
    match r with
    | c :: _ =>
      if isJsWs c then
        let rest := r.dropWhile isJsWs
        if !rest.isEmpty then some ⟨rest⟩
        else if 2 ≤ r.length then some ⟨r.drop 1⟩
        else none
      else none
    | [] => none
  else none

/-- The `^\s*return\s+` test used for the missing-return warning. -/
def hasReturnLine (text : String) : Bool :=
  let cs := dropWs text.data
  listStartsWith "return".data cs &&
    (match cs.drop 6 with | c :: _ => isJsWs c | [] => false)

/-- Return-type and missing-return checks for one function. -/
def returnFuncDiags (doc : List String) (symbols : List SymbolInfo)
    (f : SymbolInfo) : List Diagnostic :=
  match f.returnType with
  | none => []
  | some rt =>
    if rt == "" || rt == "void" || rt == "any" then []
    else
      let funcEnd := findFuncEnd doc f.line
      let bodyIdx := List.range' (f.line + 1) (funcEnd - f.line)
      let locals := bodyIdx.filterMap (fun i =>
        match matchVarDeclHead localPrimTypeNames ((doc.get? i).getD "") with
        | some (ty, nm) =>
          some ({ name := nm, type := SymKind.var, line := i,
                  varType := some ty } : SymbolInfo)
        | none => none)
      let allSyms := paramVars f ++ locals ++ symbols
      let retDiags := bodyIdx.flatMap (fun i =>
        match matchReturnValue ((doc.get? i).getD "") with
        | none => []
        | some rawVal =>
          match inferReturnType (jsTrim rawVal) allSyms with
          | none => []
          | some it =>
            if !(it == "any") && !(it == rt) && !(rt == "any") then
              [{ line := i, severity := Severity.error,
                 code := some "return-type-mismatch" }]
            else [])
      let hasRet := bodyIdx.any (fun i => hasReturnLine ((doc.get? i).getD ""))
      retDiags ++
        (if !hasRet && !(rt == "void") then
          [{ line := f.line, severity := Severity.warning,
             code := some "missing-return" }]
        else [])

/-! ## Diagnostic checker: unused-symbol passes -/

/-- Generic non-overlapping global regex count: at every position try
the pattern (given the previous character); on a match of length
`len ≥ 1` continue after it, otherwise advance one character. -/
def countScanF (tryAt : Option Char → List Char → Option Nat) :
    Nat → Option Char → List Char → Nat
  | 0, _, _ => 0
  | _ + 1, _, [] => 0
  | fuel + 1, prev, c :: rest =>
    match tryAt prev (c :: rest) with
    | some len =>
      if len == 0 then countScanF tryAt fuel (some c) rest
      else
        1 + countScanF tryAt fuel ((c :: rest).take len).getLast?
          ((c :: rest).drop len)
    | none => countScanF tryAt fuel (some c) rest

def countMatches (tryAt : Option Char → List Char → Option Nat)
    (cs : List Char) : Nat :=
  countScanF tryAt cs.length none cs

/-- One attempt of `\bname\s*\(`. -/
def tryCallAt (name : List Char) (prev : Option Char) (cs : List Char) :
    Option Nat :=
  if atBoundary prev && listStartsWith name cs then
    let r := cs.drop name.length
    match r.dropWhile isJsWs with
    | '(' :: _ => some (name.length + (r.takeWhile isJsWs).length + 1)
    | _ => none
  else none

/-- One attempt of `\bname\b`. -/
def tryUsageAt (name : List Char) (prev : Option Char) (cs : List Char) :
    Option Nat :=
  if atBoundary prev && listStartsWith name cs then
    match cs.drop name.length with
    | [] => some name.length
    | c :: _ => if !isWordChar c then some name.length else none
  else none

/-- Index (from the start) of the last `\n` of a whitespace run, if
any — the backtracking target of `\s*$` under the `m` flag. -/
def lastNewlineIdx (w : List Char) : Option Nat :=
  match w.reverse.findIdx? (fun c => c == '\n') with
  | some k => some (w.length - 1 - k)
  | none => none

/-- One attempt of the reference regex
`[\(,=\[]\s*name\s*[\),\]\s]|[\(,]\s*name\s*$` (flag `m`). -/
def tryRefAt (name : List Char) (_prev : Option Char) (cs : List Char) :
    Option Nat :=
  match cs with
  | [] => none
  | c :: rest =>
    let alt1 :=
      if c == '(' || c == ',' || c == '=' || c == '[' then
        let w1 := rest.takeWhile isJsWs
        let r1 := rest.dropWhile isJsWs
        if listStartsWith name r1 then
          let r2 := r1.drop name.length
          let w2 := r2.takeWhile isJsWs
          match r2.dropWhile isJsWs with
          | c2 :: _ =>
            if c2 == ')' || c2 == ',' || c2 == ']' then
              some (1 + w1.length + name.length + w2.length + 1)
            else if 1 ≤ w2.length then
              some (1 + w1.length + name.length + w2.length)
            else none
          | [] =>
            if 1 ≤ w2.length then
              some (1 + w1.length + name.length + w2.length)
            else none
        else none
      else none
    match alt1 with
    | some len => some len
    | none =>
      if c == '(' || c == ',' then
        let w1 := rest.takeWhile isJsWs
        let r1 := rest.dropWhile isJsWs
        if listStartsWith name r1 then
          let r2 := r1.drop name.length
          let w2 := r2.takeWhile isJsWs
          if (r2.dropWhile isJsWs).isEmpty then
            some (1 + w1.length + name.length + w2.length)
          else
            match lastNewlineIdx w2 with
            | some k => some (1 + w1.length + name.length + k)
            | none => none
        else none
      else none

/-- Unused-function hints (functions other than `main` and other than
decorated ones, with at most one call site — their own definition —
and no bare reference). -/
def unusedFuncPass (doc : List String) (symbols : List SymbolInfo) :
    List Diagnostic :=
  let allText := String.intercalate "\n" doc
  (symbols.filter (fun s => s.type == SymKind.function)).filterMap (fun f =>
    if f.name == "main" then none
    else if 0 < f.line &&
        headIs '@' (jsTrim ((doc.get? (f.line - 1)).getD "")).data then none
    else
      let calls := countMatches (tryCallAt f.name.data) allText.data
      let refs := countMatches (tryRefAt f.name.data) allText.data
      if calls ≤ 1 ∧ refs = 0 then
        some { line := f.line, severity := Severity.hint, unnecessary := true }
      else none)

/-- Unused-variable hints (at most one `\bname\b` occurrence in the
whole document — the declaration itself). -/
def unusedVarPass (doc : List String) (symbols : List SymbolInfo) :
    List Diagnostic :=
  let allText := String.intercalate "\n" doc
  (symbols.filter (fun s => s.type == SymKind.var)).filterMap (fun v =>
    if countMatches (tryUsageAt v.name.data) allText.data ≤ 1 then
      some { line := v.line, severity := Severity.hint, unnecessary := true }
    else none)

/-! ## validateDocument -/

/-- The whole diagnostic checker.  The passes run in source order and
their diagnostics are concatenated; a JS exception escaping the
call-site pass (see `argLoop`) aborts the run before
`diagnosticCollection.set`, modelled by `none`. -/
def validateDocument (doc : List String) : Option (List Diagnostic) :=
  let symbols := parseSymbols doc
  let userFunctions := symbols.filter (fun s => s.type == SymKind.function)
  let userStructs := symbols.filter (fun s => s.type == SymKind.struct)
  match callPass userFunctions userStructs doc.enum with
  | none => none
  | some callDiags =>
    some (syntaxPass doc ++ callDiags ++ varAssignPass doc ++
      userFunctions.flatMap (returnFuncDiags doc symbols) ++
      unusedFuncPass doc symbols ++ unusedVarPass doc symbols)

/-! ## isInsideString (utils.ts) -/

/-- State of the `isInsideString` character loop. -/
structure IisState where
  inDouble : Bool
  inSingle : Bool
  inF : Bool
  inBrace : Bool
deriving DecidableEq, Repr

/-- The character loop of `isInsideString`, carried out over the
characters before the queried column, tracking the previous character
(for the escape check).  An `f` directly followed by a quote starts an
f-string and skips the quote; inside an f-string a `{` sets the
boolean `inFStringBrace` flag and a `}` clears it; quote toggling is
suppressed while the flag is set. -/
def iisLoop : IisState → Option Char → List Char → IisState
  | st, _, [] => st
  | st, prev, c :: rest =>
    if prev == some bslCh then iisLoop st (some c) rest
    else if c == 'f' && (headIs dqCh rest || headIs sqCh rest) then
      match rest with
      | q :: rest2 =>
        if q == dqCh then
          iisLoop { st with inF := true, inDouble := true } (some q) rest2
        else
          iisLoop { st with inF := true, inSingle := true } (some q) rest2
      | [] => st
    else iisLoop (iisStep st c) (some c) rest
where
  /-- Brace flag update followed by quote toggling for one ordinary
  character. -/
  iisStep (st : IisState) (c : Char) : IisState :=
    let st1 :=
      if st.inF && (st.inDouble || st.inSingle) then
        if c == lbraceCh then { st with inBrace := true }
        else if c == rbraceCh then { st with inBrace := false }
        else st
      else st
    if !st1.inBrace then
      if c == dqCh && !st1.inSingle then
        if st1.inDouble then { st1 with inDouble := false, inF := false }
        else { st1 with inDouble := true }
      else if c == sqCh && !st1.inDouble then
        if st1.inSingle then { st1 with inSingle := false, inF := false }
        else { st1 with inSingle := true }
      else st1
    else st1

/-- `isInsideString(document, position)` restricted to one line and a
column: inside a string iff a quote is open and the f-string brace
flag is clear. -/
def isInsideString (lineText : String) (col : Nat) : Bool :=
  let st := iisLoop ⟨false, false, false, false⟩ none (lineText.data.take col)
  (st.inDouble || st.inSingle) && !st.inBrace

/-- Modelled from the spec: the interpolation-*depth* reading of the
lexical-helper contract — "once inside an f-string, `{` increments an
interpolation-depth counter and content is treated as live code until
the matching `}` returns the depth to zero".  Identical traversal to
`iisLoop`, but with a natural-number depth in place of the boolean
flag; a column is inside an interpolation block iff the depth there is
positive. -/
def specDepthLoop : (Bool × Bool × Bool × Nat) → Option Char → List Char →
    Bool × Bool × Bool × Nat
  | st, _, [] => st
  | st, prev, c :: rest =>
    if prev == some bslCh then specDepthLoop st (some c) rest
    else if c == 'f' && (headIs dqCh rest || headIs sqCh rest) then
      match rest with
      | q :: rest2 =>
        if q == dqCh then
          specDepthLoop (true, st.2.1, true, st.2.2.2) (some q) rest2
        else
          specDepthLoop (st.1, true, true, st.2.2.2) (some q) rest2
      | [] => st
    else specDepthLoop (specDepthStep st c) (some c) rest
where
  specDepthStep (st : Bool × Bool × Bool × Nat) (c : Char) :
      Bool × Bool × Bool × Nat :=
    let (inD, inS, inF, depth) := st
    let depth1 :=
      if inF && (inD || inS) then
        if c == lbraceCh then depth + 1
        else if c == rbraceCh then depth - 1
        else depth
      else depth
    if depth1 == 0 then
      if c == dqCh && !inS then
        if inD then (false, inS, false, depth1) else (true, inS, inF, depth1)
      else if c == sqCh && !inD then
        if inS then (inD, false, false, depth1) else (inD, true, inF, depth1)
      else (inD, inS, inF, depth1)
    else (inD, inS, inF, depth1)

/-- Modelled from the spec: the interpolation depth at a column. -/
def specInterpDepth (lineText : String) (col : Nat) : Nat :=
  (specDepthLoop (false, false, false, 0) none (lineText.data.take col)).2.2.2

/-! ## Concrete material for the theorems -/

/-- A JS identifier: a letter or underscore followed by word
characters. -/
def isJsIdent (v : String) : Bool :=
  match v.data with
  | [] => false
  | c :: rest => chMem c identStartChars && rest.all isWordChar

/-- The struct/field-access document of §8 of the spec
(well-typed final line). -/
def structDoc : List String :=
  ["struct P \x7b", "    int x", "    int y", "\x7d", "P p = P(1, 2)",
   "int z = p.x"]

/-- The same document with a mistyped final line. -/
def structDocBad : List String :=
  ["struct P \x7b", "    int x", "    int y", "\x7d", "P p = P(1, 2)",
   "str z = p.x"]

/-- A declaration of a variadic function followed by a call with more
arguments than declared parameters. -/
def varargsDoc : List String := ["void f(int *a) \x7b", "\x7d", "f(1, 2)"]

/-- A function header whose opening brace is never closed. -/
def unterminatedDoc : List String := ["int f() \x7b"]

/-- An f-string line with nested braces inside one interpolation
block: `f"{ {1} }"`. -/
def nestLine : String := "f\"\x7b \x7b1\x7d \x7d\""

/-- An f-string line with a single-level interpolation block:
`f"{x} "`. -/
def flatLine : String := "f\"\x7bx\x7d \""

/-- A symbol context consisting of one struct named `sqrt`. -/
def sqrtStructSym : SymbolInfo :=
  { name := "sqrt", type := SymKind.struct, line := 0 }

/-- A user function named `sqrt` returning `str`. -/
def sqrtFuncSym : SymbolInfo :=
  { name := "sqrt", type := SymKind.function, line := 0, returnType := some "str" }

/-- A user function named `foo` returning `int`. -/
def fooFuncSym : SymbolInfo :=
  { name := "foo", type := SymKind.function, line := 0, returnType := some "int" }

/-- A struct named `Point` (no builtin collision). -/
def pointStructSym : SymbolInfo :=
  { name := "Point", type := SymKind.struct, line := 0 }

/-! ## Helper lemmas -/

/-- Character-list membership agrees with `∈`. -/
theorem chMem_iff_mem (c : Char) : ∀ l : List Char, chMem c l = true ↔ c ∈ l := by
  intro l
  induction l with
  | nil => simp [chMem]
  | cons x t ih =>
    simp only [chMem, Bool.or_eq_true, beq_iff_eq, ih, List.mem_cons]
    constructor
    · rintro (h | h)
      · exact Or.inl h.symm
      · exact Or.inr h
    · rintro (h | h)
      · exact Or.inl h.symm
      · exact Or.inr h

/-- Dropping while a predicate that holds nowhere is the identity. -/
theorem dropWhile_eq_self (p : Char → Bool) (cs : List Char)
    (h : ∀ x ∈ cs, p x = false) : cs.dropWhile p = cs := by
  cases cs with
  | nil => rfl
  | cons c t =>
    rw [List.dropWhile_cons]
    simp [h c (by simp)]

/-- Trimming a whitespace-free character list is the identity. -/
theorem trimList_eq_self (cs : List Char) (h : ∀ x ∈ cs, isJsWs x = false) :
    trimList cs = cs := by
  unfold trimList
  rw [dropWhile_eq_self _ _ h]
  rw [dropWhile_eq_self _ _ (fun x hx => h x (List.mem_reverse.mp hx))]
  exact List.reverse_reverse cs

/-- Trimming a whitespace-free string is the identity. -/
theorem jsTrim_eq_self (v : String) (h : ∀ x ∈ v.data, isJsWs x = false) :
    jsTrim v = v := by
  unfold jsTrim
  rw [trimList_eq_self _ h]

/-- Facts about identifier start characters, by finite check. -/
theorem identStart_props : ∀ x ∈ identStartChars,
    isJsWs x = false ∧ isWordChar x = true ∧ (x == dqCh) = false ∧
    (x == sqCh) = false ∧ (x == '[') = false ∧ (x == lbraceCh) = false ∧
    isDigitCh x = false ∧ (x == '-') = false := by decide

/-- Word characters are not whitespace. -/
theorem wordChar_not_ws : ∀ x ∈ wordChars, isJsWs x = false := by decide

/-- Facts about the characters of numeric literals, by finite check. -/
theorem digitDash_props : ∀ x ∈ ('-' :: '.' :: digitChars),
    isJsWs x = false ∧ (x == dqCh) = false ∧ (x == sqCh) = false ∧
    (x == 'f') = false ∧ (x == 'b') = false ∧ (x == '[') = false ∧
    (x == lbraceCh) = false := by decide

/-- Quote characters are not word characters. -/
theorem quotes_not_word :
    isWordChar dqCh = false ∧ isWordChar sqCh = false := by decide

/-- A two-character prefix test fails when the first character
differs. -/
theorem startsWith2_false_of_head (a b c : Char) (rest : List Char)
    (h : (c == a) = false) : startsWith2 a b (c :: rest) = false := by
  cases rest <;> simp [startsWith2, h]

/-- A two-character prefix test against a non-word second character
fails on a word-character tail. -/
theorem startsWith2_false_of_tail (a b c : Char) (rest : List Char)
    (hall : ∀ x ∈ rest, isWordChar x = true) (hbnw : isWordChar b = false) :
    startsWith2 a b (c :: rest) = false := by
  cases rest with
  | nil => rfl
  | cons c2 r =>
    have h2 : (c2 == b) = false := by
      cases hq : c2 == b with
      | false => rfl
      | true =>
        have hw := hall c2 (by simp)
        rw [beq_iff_eq.mp hq] at hw
        rw [hw] at hbnw
        exact absurd hbnw (by simp)
    simp [startsWith2, h2]

/-- When the head quote/bracket/prefix tests all fail, `inferTypeCore`
reduces to its numeric/boolean tail. -/
theorem inferTypeCore_plainHead (v : String) (c : Char) (rest : List Char)
    (hv : v.data = c :: rest)
    (hdq : (c == dqCh) = false) (hsq : (c == sqCh) = false)
    (hfd : startsWith2 'f' dqCh (c :: rest) = false)
    (hfs : startsWith2 'f' sqCh (c :: rest) = false)
    (hbd : startsWith2 'b' dqCh (c :: rest) = false)
    (hbs : startsWith2 'b' sqCh (c :: rest) = false)
    (hlb : (c == '[') = false) (hbr : (c == lbraceCh) = false) :
    inferTypeCore v =
      (if isIntLit (c :: rest) then some "int"
       else if isFloatLit (c :: rest) then some "float"
       else if v == "true" || v == "false" then some "bool"
       else none) := by
  unfold inferTypeCore
  rw [hv]
  simp only [headIs, hdq, hsq, hlb, hbr, hfd, hfs, hbd, hbs, Bool.false_and,
    if_false, Bool.false_or, Bool.or_false, if_neg, Bool.false_eq_true,
    not_false_eq_true]

/-- The characters of an integer literal are a dash or digits. -/
theorem isIntLit_mem (cs : List Char) (h : isIntLit cs = true) :
    ∀ x ∈ cs, x ∈ ('-' :: '.' :: digitChars) := by
  intro x hx
  unfold isIntLit at h
  match cs, hx with
  | c :: rest, hx =>
    by_cases hc : c = '-'
    · subst hc
      simp only at h
      rcases List.mem_cons.mp hx with h1 | h1
      · simp [h1]
      · unfold digitsNonempty at h
        have := (List.all_eq_true.mp (Bool.and_elim_right h)) x h1
        have := (chMem_iff_mem x digitChars).mp this
        simp [this]
    · rw [show (match c :: rest with
          | '-' :: rest => digitsNonempty rest
          | _ => digitsNonempty (c :: rest)) = digitsNonempty (c :: rest) from by
          cases c' : c == '-' <;> simp_all] at h
      unfold digitsNonempty at h
      have := (List.all_eq_true.mp (Bool.and_elim_right h)) x hx
      have := (chMem_iff_mem x digitChars).mp this
      simp [this]

/-- Unfolding `isIntLit` on a dash head. -/
theorem isIntLit_cons_dash (rest : List Char) :
    isIntLit ('-' :: rest) = digitsNonempty rest := rfl

/-- Unfolding `isIntLit` on a non-dash head. -/
theorem isIntLit_cons_ne (c : Char) (rest : List Char) (hc : ¬(c = '-')) :
    isIntLit (c :: rest) = digitsNonempty (c :: rest) := by
  unfold isIntLit
  cases h : c == '-' with
  | true => exact absurd (beq_iff_eq.mp h) hc
  | false => simp_all

/-- Unfolding `isFloatLit` on a dash head. -/
theorem isFloatLit_cons_dash (rest : List Char) :
    isFloatLit ('-' :: rest) = isFloatCore rest := rfl

/-- Unfolding `isFloatLit` on a non-dash head. -/
theorem isFloatLit_cons_ne (c : Char) (rest : List Char) (hc : ¬(c = '-')) :
    isFloatLit (c :: rest) = isFloatCore (c :: rest) := by
  unfold isFloatLit
  cases h : c == '-' with
  | true => exact absurd (beq_iff_eq.mp h) hc
  | false => simp_all

/-- The characters of a float literal body are a dot or digits. -/
theorem isFloatCore_mem (cs : List Char) (h : isFloatCore cs = true) :
    ∀ x ∈ cs, x ∈ ('-' :: '.' :: digitChars) := by
  intro x hx
  unfold isFloatCore at h
  simp only [Bool.and_eq_true] at h
  rw [← List.takeWhile_append_dropWhile (p := isDigitCh) (l := cs)] at hx
  rcases List.mem_append.mp hx with h1 | h1
  · have := List.mem_takeWhile_imp h1
    have := (chMem_iff_mem x digitChars).mp this
    simp [this]
  · rcases hr : cs.dropWhile isDigitCh with _ | ⟨d, r2⟩
    · rw [hr] at h1; simp at h1
    · rw [hr] at h h1
      by_cases hd : d = '.'
      · subst hd
        rcases List.mem_cons.mp h1 with h2 | h2
        · simp [h2]
        · have h3 := h.2
          simp only at h3
          unfold digitsNonempty at h3
          have := (List.all_eq_true.mp (Bool.and_elim_right h3)) x h2
          have := (chMem_iff_mem x digitChars).mp this
          simp [this]
      · cases hdeq : d == '.' with
        | true => exact absurd (beq_iff_eq.mp hdeq) hd
        | false => simp_all

/-- A float literal body is not all digits (it contains a dot). -/
theorem isFloatCore_not_all_digits (cs : List Char) (h : isFloatCore cs = true) :
    digitsNonempty cs = false := by
  unfold isFloatCore at h
  simp only [Bool.and_eq_true] at h
  rcases hr : cs.dropWhile isDigitCh with _ | ⟨d, r2⟩
  · rw [hr] at h; simp at h
  · unfold digitsNonempty
    cases hall : cs.all isDigitCh with
    | false => simp
    | true =>
      exfalso
      have hnil : cs.dropWhile isDigitCh = [] :=
        List.dropWhile_eq_nil_iff.mpr
          (fun x hx => List.all_eq_true.mp hall x hx)
      rw [hr] at hnil
      exact List.cons_ne_nil _ _ hnil

/-- The characters of a float literal are a dash, dot or digits. -/
theorem isFloatLit_mem (cs : List Char) (h : isFloatLit cs = true) :
    ∀ x ∈ cs, x ∈ ('-' :: '.' :: digitChars) := by
  intro x hx
  match cs, hx with
  | c :: rest, hx =>
    by_cases hc : c = '-'
    · subst hc
      rw [isFloatLit_cons_dash] at h
      rcases List.mem_cons.mp hx with h1 | h1
      · simp [h1]
      · exact isFloatCore_mem rest h x h1
    · rw [isFloatLit_cons_ne c rest hc] at h
      exact isFloatCore_mem (c :: rest) h x hx

/-- A float literal is not an integer literal. -/
theorem isFloatLit_not_int (cs : List Char) (h : isFloatLit cs = true) :
    isIntLit cs = false := by
  cases cs with
  | nil => simp [isFloatLit, isFloatCore, digitsNonempty] at h
  | cons c rest =>
    by_cases hc : c = '-'
    · subst hc
      rw [isFloatLit_cons_dash] at h
      rw [isIntLit_cons_dash]
      exact isFloatCore_not_all_digits rest h
    · rw [isFloatLit_cons_ne c rest hc] at h
      rw [isIntLit_cons_ne c rest hc]
      exact isFloatCore_not_all_digits (c :: rest) h

/-- Every integer literal infers as `int`. -/
theorem inferType_int (v : String) (h : isIntLit v.data = true) :
    inferType v = some "int" := by
  obtain ⟨c, rest, hv⟩ : ∃ c rest, v.data = c :: rest := by
    match hd : v.data with
    | [] => rw [hd] at h; simp [isIntLit, digitsNonempty] at h
    | c :: r => exact ⟨c, r, rfl⟩
  have hmem := isIntLit_mem v.data h
  have htrim : jsTrim v = v :=
    jsTrim_eq_self v (fun x hx => (digitDash_props x (hmem x hx)).1)
  have hc := digitDash_props c (hmem c (by rw [hv]; exact List.mem_cons_self c rest))
  unfold inferType
  rw [htrim,
    inferTypeCore_plainHead v c rest hv hc.2.1 hc.2.2.1
      (startsWith2_false_of_head _ _ _ _ hc.2.2.2.1)
      (startsWith2_false_of_head _ _ _ _ hc.2.2.2.1)
      (startsWith2_false_of_head _ _ _ _ hc.2.2.2.2.1)
      (startsWith2_false_of_head _ _ _ _ hc.2.2.2.2.1)
      hc.2.2.2.2.2.1 hc.2.2.2.2.2.2]
  rw [hv] at h
  rw [if_pos h]

/-- Every float literal infers as `float`. -/
theorem inferType_float (v : String) (h : isFloatLit v.data = true) :
    inferType v = some "float" := by
  obtain ⟨c, rest, hv⟩ : ∃ c rest, v.data = c :: rest := by
    match hd : v.data with
    | [] => rw [hd] at h; simp [isFloatLit, isFloatCore, digitsNonempty] at h
    | c :: r => exact ⟨c, r, rfl⟩
  have hmem := isFloatLit_mem v.data h
  have htrim : jsTrim v = v :=
    jsTrim_eq_self v (fun x hx => (digitDash_props x (hmem x hx)).1)
  have hc := digitDash_props c (hmem c (by rw [hv]; exact List.mem_cons_self c rest))
  unfold inferType
  rw [htrim,
    inferTypeCore_plainHead v c rest hv hc.2.1 hc.2.2.1
      (startsWith2_false_of_head _ _ _ _ hc.2.2.2.1)
      (startsWith2_false_of_head _ _ _ _ hc.2.2.2.1)
      (startsWith2_false_of_head _ _ _ _ hc.2.2.2.2.1)
      (startsWith2_false_of_head _ _ _ _ hc.2.2.2.2.1)
      hc.2.2.2.2.2.1 hc.2.2.2.2.2.2]
  rw [hv] at h
  simp [isFloatLit_not_int (c :: rest) h, h]

/-- A bare identifier other than the boolean keywords infers as
nothing. -/
theorem inferType_ident_none (v : String) (h : isJsIdent v = true)
    (h1 : v ≠ "true") (h2 : v ≠ "false") : inferType v = none := by
  obtain ⟨c, rest, hv⟩ : ∃ c rest, v.data = c :: rest := by
    unfold isJsIdent at h
    match hd : v.data with
    | [] => rw [hd] at h; simp at h
    | c :: r => exact ⟨c, r, rfl⟩
  have h3 : (chMem c identStartChars && rest.all isWordChar) = true := by
    unfold isJsIdent at h
    rw [hv] at h
    exact h
  rw [Bool.and_eq_true] at h3
  have hcp := identStart_props c ((chMem_iff_mem c identStartChars).mp h3.1)
  have hrw : ∀ x ∈ rest, isWordChar x = true := List.all_eq_true.mp h3.2
  have hnws : ∀ x ∈ v.data, isJsWs x = false := by
    intro x hx
    rw [hv] at hx
    rcases List.mem_cons.mp hx with h4 | h4
    · rw [h4]; exact hcp.1
    · exact wordChar_not_ws x ((chMem_iff_mem x wordChars).mp (hrw x h4))
  have htrim : jsTrim v = v := jsTrim_eq_self v hnws
  unfold inferType
  rw [htrim,
    inferTypeCore_plainHead v c rest hv hcp.2.2.1 hcp.2.2.2.1
      (startsWith2_false_of_tail _ _ _ _ hrw quotes_not_word.1)
      (startsWith2_false_of_tail _ _ _ _ hrw quotes_not_word.2)
      (startsWith2_false_of_tail _ _ _ _ hrw quotes_not_word.1)
      (startsWith2_false_of_tail _ _ _ _ hrw quotes_not_word.2)
      hcp.2.2.2.2.1 hcp.2.2.2.2.2.1]
  have hint : isIntLit (c :: rest) = false := by
    rw [isIntLit_cons_ne c rest (by
      intro hcd
      rw [hcd] at hcp
      exact absurd hcp.2.2.2.2.2.2.2 (by simp))]
    unfold digitsNonempty
    simp [hcp.2.2.2.2.2.2.1]
  have hflt : isFloatLit (c :: rest) = false := by
    rw [isFloatLit_cons_ne c rest (by
      intro hcd
      rw [hcd] at hcp
      exact absurd hcp.2.2.2.2.2.2.2 (by simp))]
    unfold isFloatCore
    simp [List.takeWhile_cons, hcp.2.2.2.2.2.2.1]
  simp [hint, hflt, beq_eq_false_iff_ne.mpr h1, beq_eq_false_iff_ne.mpr h2]

/-! ## Claim theorems -/

/-- C1: the claim states that validation is total — it always returns a
diagnostics list without raising — and that for a call site of a
variadic function the arity/type check is skipped entirely, producing
no failure even when the call passes more arguments than the declared
parameter count.  On the code, only the argument-count comparison is
guarded by `hasVarargs`: the per-argument type loop still runs over all
arguments and reads `parameters[argIdx].type` past the end of the
parameter list, a TypeError on `undefined`.  On `void f(int *a) { }`
followed by the call `f(1, 2)`, validation aborts with the exception
(modelled by `none`) instead of returning a diagnostics list. -/
theorem validateDocument_varargs_extra_args_throws :
    validateDocument varargsDoc = none := by decide

/-- C2 (counterexample): contrary to the claim, `float x = 3` does not
produce zero diagnostics — the variable-assignment check emits an Error
for it. -/
theorem varAssign_float_decl_int_value_flagged :
    varAssignPass ["float x = 3"] ≠ [] := by decide

/-- C2 (amended): on the one-line declaration `int x = 3.5` the
variable-assignment check produces exactly one Warning with code
`implicit-cast`; on `float x = 3` it produces exactly one Error with
code `type-mismatch` — assigning an int to a declared float is an
error, only the float-to-int narrowing direction is downgraded to a
warning. -/
theorem varAssign_implicit_cast_policy :
    varAssignPass ["int x = 3.5"] =
      [{ line := 0, severity := Severity.warning, code := some "implicit-cast" }] ∧
    varAssignPass ["float x = 3"] =
      [{ line := 0, severity := Severity.error, code := some "type-mismatch" }] := by
  decide

/-- C3 (counterexample): validation of the struct document (struct `P`,
`P p = P(1, 2)`, `int z = p.x`) does not produce zero diagnostics — the
unused-variable pass emits a Hint for `z`. -/
theorem structDoc_not_diagnostic_free :
    validateDocument structDoc ≠ some [] := by decide

/-- C3 (amended): the struct document produces no Errors and no
Warnings, only a single unused-variable Hint for `z`; replacing the
last line with `str z = p.x` adds a type-mismatch Error on that line. -/
theorem structDoc_diagnostics :
    validateDocument structDoc =
      some [{ line := 5, severity := Severity.hint, unnecessary := true }] ∧
    validateDocument structDocBad =
      some [{ line := 5, severity := Severity.error, code := some "type-mismatch" },
            { line := 5, severity := Severity.hint, unnecessary := true }] := by
  decide

/-- C4 (counterexample): for a symbol context containing a struct named
`sqrt`, `inferReturnType` of `sqrt(4)` returns the builtin-table entry
`float`, not the struct's own name `sqrt` as the claim states. -/
theorem struct_sqrt_resolves_to_builtin :
    inferReturnType "sqrt(4)" [sqrtStructSym] = some "float" ∧
    inferReturnType "sqrt(4)" [sqrtStructSym] ≠ some "sqrt" := by decide

/-- C4 (amended): `inferReturnType` resolves `name(...)` as a
user-defined function first (returning its declared returnType), else
through the fixed builtin table, and only then as a user-defined struct
(returning the struct's own name); a struct whose name collides with a
builtin therefore yields the builtin's return type. -/
theorem inferReturnType_resolution_order :
    inferReturnType "foo(1)" [fooFuncSym] = some "int" ∧
    inferReturnType "sqrt(4)" [sqrtFuncSym, sqrtStructSym] = some "str" ∧
    inferReturnType "sqrt(4)" [sqrtStructSym] = some "float" ∧
    inferReturnType "Point(1)" [pointStructSym] = some "Point" := by decide

/-- C5: the claim says a semicolon outside a line comment is an Error
and one inside a line comment produces nothing.  The lookahead in
`/;(?!.*\/\/)/` inverts the intended comment test (the code's own
comment reads "Ignore if in comment"): `int x = 1; // c` has its
semicolon outside the comment yet produces no diagnostic, while
`int x = 5 // note; here` has its only semicolon inside the comment yet
is flagged; a plain `int x = 1;` is flagged as the claim expects, and a
line that is entirely a comment is skipped. -/
theorem semicolon_check_inverted :
    semicolonDiags 0 "int x = 1; // c" = [] ∧
    semicolonDiags 0 "int x = 5 // note; here" =
      [{ line := 0, severity := Severity.error, code := some "no-semicolons" }] ∧
    semicolonDiags 0 "int x = 1;" =
      [{ line := 0, severity := Severity.error, code := some "no-semicolons" }] ∧
    semicolonDiags 0 "// x;" = [] := by decide

/-- C6: for every expression that is not a literal (`inferType` gives
nothing) and not a leading `name(...)` call pattern, containing the `/`
operator, `inferReturnType` returns `float` for every symbol context —
division always infers as float. -/
theorem division_always_infers_float (value : String)
    (symbols : List SymbolInfo)
    (hlit : inferType value = none)
    (hcall : leadCallName (jsTrim value).data = none)
    (hdiv : (jsTrim value).data.contains '/' = true) :
    inferReturnType value symbols = some "float" := by
  unfold inferType at hlit
  unfold inferReturnType inferReturnTypeT irtCallBranch irtStructBranch
  rw [hlit, hcall]
  unfold irtOps
  have hdiv' : '/' ∈ (jsTrim value).data := List.mem_of_elem_eq_true hdiv
  simp [hdiv']

/-- C6 (witness): `10 / 2` infers as `float` in the empty context. -/
theorem division_always_infers_float_witness :
    inferReturnType "10 / 2" [] = some "float" :=
  division_always_infers_float "10 / 2" [] (by decide) (by decide) (by decide)

/-- C7 (counterexample): a function whose brace-balanced body scan runs
off the end of the document is not excluded from the analysis pass — on
the one-line document `int f() {` validation still produces diagnostics
for `f`. -/
theorem unterminated_function_not_skipped :
    validateDocument unterminatedDoc ≠ some [] := by decide

/-- C7 (amended): when the brace scan runs off the end of the document,
the function's effective body range collapses to its declaration line,
so no return-statement checks or local-variable collection happen and
no error about the unterminated block is reported; but the
missing-return Warning (the collapsed body contains no `return`) and
the unused-function Hint still fire for that function. -/
theorem unterminated_function_diagnostics :
    validateDocument unterminatedDoc =
      some [{ line := 0, severity := Severity.warning,
              code := some "missing-return" },
            { line := 0, severity := Severity.hint, unnecessary := true }] := by
  decide

/-- C8: `inferType` maps every primitive literal to its own type — with
`{...}` split into dict versus set by a top-level `:` outside nested
strings — and maps every bare identifier (other than the boolean
keywords, which are literals) to nothing: only `inferReturnType`
resolves identifiers. -/
theorem inferType_literal_and_identifier_contract :
    inferType "\"hi\"" = some "str" ∧ inferType "f\"a\"" = some "str" ∧
    inferType "b\"a\"" = some "bytes" ∧ inferType "true" = some "bool" ∧
    inferType "false" = some "bool" ∧ inferType "[1, 2]" = some "list" ∧
    inferType "\x7b\x7d" = some "dict" ∧
    inferType "\x7b1: 2\x7d" = some "dict" ∧
    inferType "\x7b1, 2\x7d" = some "set" ∧
    inferType "\x7b\"a:b\"\x7d" = some "set" ∧
    (∀ v : String, isIntLit v.data = true → inferType v = some "int") ∧
    (∀ v : String, isFloatLit v.data = true → inferType v = some "float") ∧
    (∀ v : String, isJsIdent v = true → v ≠ "true" → v ≠ "false" →
      inferType v = none) :=
  ⟨by decide, by decide, by decide, by decide, by decide, by decide, by decide,
   by decide, by decide, by decide, inferType_int, inferType_float,
   inferType_ident_none⟩

/-- C8 (witness): the universal parts applied at `42`, `-3.5` and
`foo`. -/
theorem inferType_literal_and_identifier_contract_witness :
    inferType "42" = some "int" ∧ inferType "-3.5" = some "float" ∧
    inferType "foo" = none := by
  obtain ⟨-, -, -, -, -, -, -, -, -, -, hint, hflt, hid⟩ :=
    inferType_literal_and_identifier_contract
  exact ⟨hint "42" (by decide), hflt "-3.5" (by decide),
    hid "foo" (by decide) (by decide) (by decide)⟩

/-- C9 (counterexample): at column 8 of `f"{ {1} }"` the interpolation
depth — per the spec's depth-counter contract, modelled by
`specInterpDepth` — is 1, so the column lies inside the f-string's
interpolation block; yet `isInsideString` reports it as inside a
string: the code keeps a boolean flag, not a counter, and the nested
closing brace at column 6 already cleared it. -/
theorem nested_interpolation_reported_inside_string :
    specInterpDepth nestLine 8 = 1 ∧ isInsideString nestLine 8 = true := by
  decide

/-- C9 (amended): the inside-string test tracks interpolation with a
boolean flag rather than a depth counter: a column inside an unnested
interpolation region (column 3 of `f"{x} "`, column 5 of `f"{ {1} }"`)
is not reported as inside a string, but once a nested closing brace has
cleared the flag, later columns of the same interpolation block
(column 8 of `f"{ {1} }"`) are reported as inside the string again. -/
theorem isInsideString_brace_flag_semantics :
    isInsideString flatLine 3 = false ∧
    isInsideString nestLine 5 = false ∧
    isInsideString nestLine 8 = true := by decide

/-- C10: the variable-assignment check matches only the fixed primitive
type names, so a struct-typed declaration `P p = <expr>` is never
type-checked regardless of the assigned expression, while
`parseSymbols` (whose variable regex includes the discovered struct
names) still records the variable symbol `p` of type `P`. -/
theorem struct_typed_decl_skips_assignment_check :
    (∀ e : String,
      varAssignPass ["struct P \x7b", "\x7d", "P p = " ++ e] = []) ∧
    ({ name := "p", type := SymKind.var, line := 2, varType := some "P" } :
        SymbolInfo) ∈
      parseSymbols ["struct P \x7b", "\x7d", "P p = \"hello\""] := by
  refine ⟨fun e => ?_, by decide⟩
  cases e
  rfl
